import Mathlib

/-! # remote-server: the command gateway, the service operations and the uptime formatter

A shallow embedding of `internal/handlers/server.go`.

* Go strings that hold text are Lean `String`s (sequences of code points, that is
  valid UTF-8, which is what the JSON decoder of the request body delivers); Go's
  `len(s)` is the number of bytes of the UTF-8 encoding, `String.utf8ByteSize`.
* Captured subprocess output is a list of bytes. A response is sent with `c.JSON`;
  for a key that holds `string(output)` the model keeps the bytes of the string
  value that the JSON document carries, `jsonStringValue`.
* The operating system is a parameter: `goos` is `runtime.GOOS`, and `run`
  gives, for an `exec.Cmd`, what `cmd.CombinedOutput()` returns.
* A handler returns its HTTP response together with the `exec.Cmd` it ran
  (`none` when no subprocess was created).
-/

namespace RemoteServer

/-! ## Library functions used by the handlers -/

/-- `unicode.IsSpace`: the Latin-1 spaces `\t \n \v \f \r`, space, U+0085, U+00A0,
and outside Latin-1 the `White_Space` table. -/
def IsSpace (r : Char) : Bool :=
  let n := r.toNat
  if n ≤ 0xFF then
    n == 0x09 || n == 0x0A || n == 0x0B || n == 0x0C || n == 0x0D || n == 0x20
      || n == 0x85 || n == 0xA0
  else
    n == 0x1680 || (0x2000 ≤ n && n ≤ 0x200A) || n == 0x2028 || n == 0x2029
      || n == 0x202F || n == 0x205F || n == 0x3000

/-- `strings.TrimLeftFunc` on the runes of a string. -/
def TrimLeftFunc (s : List Char) (f : Char → Bool) : List Char :=
  s.dropWhile f

/-- `strings.TrimRightFunc` on the runes of a string. -/
def TrimRightFunc (s : List Char) (f : Char → Bool) : List Char :=
  (s.reverse.dropWhile f).reverse

/-- `strings.TrimFunc`: `TrimRightFunc(TrimLeftFunc(s, f), f)`. -/
def TrimFunc (s : List Char) (f : Char → Bool) : List Char :=
  TrimRightFunc (TrimLeftFunc s f) f

/-- `strings.TrimSpace`: leading and trailing white space removed. -/
def TrimSpace (s : String) : String :=
  ⟨TrimFunc s.data IsSpace⟩

/-- The loop of `strings.FieldsFunc`: `cur` holds, in reverse, the runes of the
field that is open (`start >= 0` in the Go code exactly when `cur` is not empty). -/
def fieldsLoop (f : Char → Bool) : List Char → List Char → List String
  | [], cur => if cur.isEmpty then [] else [⟨cur.reverse⟩]
  | r :: rest, cur =>
    if f r then
      if cur.isEmpty then fieldsLoop f rest [] else ⟨cur.reverse⟩ :: fieldsLoop f rest []
    else
      fieldsLoop f rest (r :: cur)

/-- `strings.FieldsFunc`. -/
def FieldsFunc (s : String) (f : Char → Bool) : List String :=
  fieldsLoop f s.data []

/-- `strings.Fields`: split around runs of white space. -/
def Fields (s : String) : List String :=
  FieldsFunc s IsSpace

/-- `strings.ContainsAny(s, chars)`. -/
def ContainsAny (s chars : String) : Bool :=
  s.data.any (fun r => chars.data.contains r)

/-- Go's `len(s)` for a string: the number of bytes. -/
def len (s : String) : Nat :=
  s.utf8ByteSize

/-- `utf8.RuneCountInString`: the number of characters. -/
def RuneCountInString (s : String) : Nat :=
  s.data.length

/-- The characters of the class `[;&|<>$\(\)\{\}\[\]!\\]`. -/
def unsafeChars : List Char :=
  [';', '&', '|', '<', '>', '$', '(', ')', '{', '}', '[', ']', '!', '\\']

/-- `unsafePattern.MatchString(s)`: the pattern is one character class, so it
matches exactly when some rune of `s` is in the class. -/
def unsafePatternMatchString (s : String) : Bool :=
  s.data.any (fun r => unsafeChars.contains r)

/-! ## Processes and responses -/

/-- A byte of captured output. -/
abbrev Byte := Fin 256

/-- `utf8.RuneError`, U+FFFD. -/
def RuneError : Nat := 0xFFFD

/-- The table `first` of package `utf8`: `0xF0` for an ASCII byte, `0xF1` for a
byte that starts no sequence, otherwise the size in the low three bits and the
index of the accept range in the high four. -/
def first (b : Nat) : Nat :=
  if b < 0x80 then 0xF0
  else if b < 0xC2 then 0xF1
  else if b < 0xE0 then 0x02
  else if b = 0xE0 then 0x13
  else if b < 0xED then 0x03
  else if b = 0xED then 0x23
  else if b < 0xF0 then 0x03
  else if b = 0xF0 then 0x34
  else if b < 0xF4 then 0x04
  else if b = 0xF4 then 0x44
  else 0xF1

/-- The table `acceptRanges` of package `utf8`: the lowest and the highest second byte. -/
def acceptRanges (i : Nat) : Nat × Nat :=
  match i with
  | 0 => (0x80, 0xBF)
  | 1 => (0xA0, 0xBF)
  | 2 => (0x80, 0x9F)
  | 3 => (0x90, 0xBF)
  | 4 => (0x80, 0x8F)
  | _ => (0, 0)

/-- `utf8.DecodeRuneInString`: the rune and the number of bytes of the first
sequence of `s`; `(RuneError, 1)` when `s` starts with no valid sequence. -/
def DecodeRuneInString (s : List Byte) : Nat × Nat :=
  let n := s.length
  if n < 1 then (RuneError, 0)
  else
    let s0 := (s.getD 0 0).val
    let x := first s0
    if x ≥ 0xF0 then
      (if x % 2 = 0 then s0 else RuneError, 1)
    else
      let sz := x % 8
      let accept := acceptRanges (x / 16)
      if n < sz then (RuneError, 1)
      else
        let s1 := (s.getD 1 0).val
        if s1 < accept.1 ∨ accept.2 < s1 then (RuneError, 1)
        else if sz ≤ 2 then ((s0 % 32) * 64 + s1 % 64, 2)
        else
          let s2 := (s.getD 2 0).val
          if s2 < 0x80 ∨ 0xBF < s2 then (RuneError, 1)
          else if sz ≤ 3 then ((s0 % 16) * 4096 + (s1 % 64) * 64 + s2 % 64, 3)
          else
            let s3 := (s.getD 3 0).val
            if s3 < 0x80 ∨ 0xBF < s3 then (RuneError, 1)
            else ((s0 % 8) * 262144 + (s1 % 64) * 4096 + (s2 % 64) * 64 + s3 % 64, 4)

/-- Whether `utf8.DecodeRuneInString` finds no valid sequence at the start of `s`. -/
def invalidStart (s : List Byte) : Bool :=
  (DecodeRuneInString s).1 == RuneError && (DecodeRuneInString s).2 == 1

/-- The loop of `appendString` in `encoding/json`, read back as the bytes of the
string value: a byte at which `DecodeRuneInString` finds no valid sequence is
written as `\ufffd`, that is U+FFFD, the bytes `EF BF BD`, and the loop goes on
at the next byte; a valid sequence is kept and the loop goes on after it
(`pending` counts the bytes of it that are still to be copied). -/
def jsonLoop : List Byte → Nat → List Byte
  | [], _ => []
  | b :: rest, pending + 1 => b :: jsonLoop rest pending
  | b :: rest, 0 =>
    if invalidStart (b :: rest) then 0xEF :: 0xBF :: 0xBD :: jsonLoop rest 0
    else b :: jsonLoop rest ((DecodeRuneInString (b :: rest)).2 - 1)

/-- What `c.JSON` (`json.Marshal`) makes of a Go string with the bytes `s`: the
bytes of the string value in the JSON document. -/
def jsonStringValue (s : List Byte) : List Byte :=
  jsonLoop s 0

/-- The loop of `utf8.ValidString`: no byte at which a sequence must start is one
at which `DecodeRuneInString` finds no valid sequence. -/
def validLoop : List Byte → Nat → Bool
  | [], _ => true
  | _ :: rest, pending + 1 => validLoop rest pending
  | b :: rest, 0 =>
    if invalidStart (b :: rest) then false
    else validLoop rest ((DecodeRuneInString (b :: rest)).2 - 1)

/-- `utf8.ValidString`: the bytes are valid UTF-8. -/
def ValidString (s : List Byte) : Bool :=
  validLoop s 0

/-- `utf8.AppendRune`: the UTF-8 bytes of a character. -/
def EncodeRune (c : Char) : List Byte :=
  let v := c.toNat
  if v < 0x80 then [Fin.ofNat v]
  else if v < 0x800 then [Fin.ofNat (0xC0 + v / 64), Fin.ofNat (0x80 + v % 64)]
  else if v < 0x10000 then
    [Fin.ofNat (0xE0 + v / 4096), Fin.ofNat (0x80 + v / 64 % 64), Fin.ofNat (0x80 + v % 64)]
  else
    [Fin.ofNat (0xF0 + v / 262144), Fin.ofNat (0x80 + v / 4096 % 64),
      Fin.ofNat (0x80 + v / 64 % 64), Fin.ofNat (0x80 + v % 64)]

/-- The conversion `[]byte(s)`: the bytes of a string. -/
def bytesOf (s : String) : List Byte :=
  s.data.flatMap EncodeRune

/-- The fields of `exec.Cmd` the handlers set. `Env = none` is Go's nil slice
(the child inherits the environment of the server); `some []` is the empty,
non-nil slice (the child gets no environment variable). -/
structure Cmd where
  Path : String
  Args : List String
  Env : Option (List String)
deriving DecidableEq

/-- `exec.Command(name, arg...)` and `exec.CommandContext(ctx, name, arg...)`. -/
def Command (name : String) (arg : List String) : Cmd :=
  { Path := name, Args := name :: arg, Env := none }

/-- The values of `ctx.Err()`. -/
inductive ContextErr where
  | Canceled
  | DeadlineExceeded
deriving DecidableEq

/-- What running a command gives back: the combined output, the error of
`CombinedOutput` (`none` is nil, otherwise the text of `err.Error()`), and the
value of `ctx.Err()` read afterwards (`none` is nil). -/
structure ProcResult where
  output : List Byte
  err : Option String
  ctxErr : Option ContextErr
deriving DecidableEq

/-- The JSON body of a response: the keys the handlers write. For `output` and
`logs` the bytes of the string values. -/
structure Body where
  error : Option String := none
  detail : Option String := none
  success : Option Bool := none
  output : Option (List Byte) := none
  message : Option String := none
  service : Option String := none
  lines : Option Nat := none
  logs : Option (List (List Byte)) := none
deriving DecidableEq

/-- An HTTP response. -/
structure Response where
  status : Nat
  body : Body
deriving DecidableEq

/-- What a handler did: the response, and the command it ran if it ran one. -/
structure Outcome where
  response : Response
  spawned : Option Cmd
deriving DecidableEq

def StatusOK : Nat := 200
def StatusBadRequest : Nat := 400
def StatusForbidden : Nat := 403
def StatusRequestTimeout : Nat := 408
def StatusInternalServerError : Nat := 500

/-- The `ErrorHandler` of `main.go` applied to `fiber.NewError(code, message)`. -/
def NewError (code : Nat) (message : String) : Response :=
  { status := code, body := { error := some message } }

/-! ## `formatUptime` -/

/-- The function `formatUptime`. The argument is a `uint64`; the function only
divides and takes remainders, so nothing wraps around and it is the same
function on the natural numbers. -/
def formatUptime (uptime : Nat) : String :=
  let days := uptime / (24 * 3600)
  let hours := (uptime % (24 * 3600)) / 3600
  let minutes := (uptime % 3600) / 60
  let seconds := uptime % 60
  let parts : List String := []
  let parts := if days > 0 then parts ++ [toString days ++ " days"] else parts
  let parts := if hours > 0 then parts ++ [toString hours ++ " hours"] else parts
  let parts := if minutes > 0 then parts ++ [toString minutes ++ " minutes"] else parts
  let parts :=
    if seconds > 0 ∨ parts.length = 0 then parts ++ [toString seconds ++ " seconds"] else parts
  ", ".intercalate parts

/-! ## The service operations -/

/-- The handler `RestartService`; `serviceName` is `c.Params("name")`. -/
def RestartService (goos : String) (run : Cmd → ProcResult) (serviceName : String) : Outcome :=
  if ContainsAny serviceName ";&|" then
    { response := NewError StatusBadRequest "Invalid service name", spawned := none }
  else
    let cmd :=
      if goos = "windows" then
        Command "net" ["stop", serviceName, "&&", "net", "start", serviceName]
      else
        Command "systemctl" ["restart", serviceName]
    let r := run cmd
    match r.err with
    | some e =>
      { response := NewError StatusInternalServerError ("Failed to restart service: " ++ e),
        spawned := some cmd }
    | none =>
      { response :=
          { status := StatusOK,
            body := { success := some true, message := some "Service restarted successfully",
                      output := some (jsonStringValue r.output) } },
        spawned := some cmd }

/-- `strings.Split(string(output), "\n")` on the bytes of the output. -/
def splitLines : List Byte → List Byte → List (List Byte)
  | [], cur => [cur.reverse]
  | b :: rest, cur => if b = 10 then cur.reverse :: splitLines rest [] else splitLines rest (b :: cur)

/-- `c.Query(key, defaultValue)` of fiber, on the raw value of the query
parameter (the empty string when the request has none). -/
def Query (raw defaultValue : String) : String :=
  if raw = "" then defaultValue else raw

/-- The handler `GetServiceLogs`; `linesQuery` is the raw value of the query
parameter `lines`. -/
def GetServiceLogs (goos : String) (run : Cmd → ProcResult) (serviceName : String)
    (linesQuery : String) : Outcome :=
  if ContainsAny serviceName ";&|" then
    { response := NewError StatusBadRequest "Invalid service name", spawned := none }
  else
    let lines := Query linesQuery "100"
    let cmd :=
      if goos = "windows" then
        Command "powershell" ["-Command",
          "Get-EventLog -LogName Application -Source " ++ serviceName ++ " -Newest " ++ lines]
      else
        Command "journalctl" ["-u", serviceName, "-n", lines]
    let r := run cmd
    match r.err with
    | some e =>
      { response := NewError StatusInternalServerError ("Failed to get logs: " ++ e),
        spawned := some cmd }
    | none =>
      let logs := splitLines r.output []
      { response :=
          { status := StatusOK,
            body := { service := some serviceName, lines := some logs.length,
                      logs := some (logs.map jsonStringValue) } },
        spawned := some cmd }

/-! ## The command gateway -/

/-- The map `AllowedCommands`; a key that is absent reads as `false`. -/
def AllowedCommands (verb : String) : Bool :=
  if verb = "dir" then true
  else if verb = "echo" then true
  else if verb = "ls" then true
  else if verb = "ping" then true
  else false

/-- A rejection of `ExecuteCommand`: a status and an `error` message, no subprocess. -/
def reject (status : Nat) (error : String) : Outcome :=
  { response := { status := status, body := { error := some error } }, spawned := none }

/-- Lines 353-363 of `ExecuteCommand`: the `exec.Cmd` that is finally run, for the
trimmed `command`, its first token `verb` and its other tokens `args`. -/
def buildCmd (goos command verb : String) (args : List String) : Cmd :=
  let cmd :=
    if goos = "windows" then Command "cmd.exe" ["/C", command]
    else Command "/bin/sh" ["-c", command]
  let cmd := { cmd with Env := some [] }
  if goos = "windows" ∧ verb = "ping" then
    Command "C:\\Windows\\System32\\ping.exe" args
  else cmd

/-- Lines 367-394 of `ExecuteCommand`: the response for what `CombinedOutput`
and `ctx.Err()` gave, as `c.JSON` sends it. -/
def respond (r : ProcResult) : Response :=
  if r.output.length > 1024 * 1024 then
    { status := StatusOK,
      body := { success := some false,
                output := some (jsonStringValue (r.output.take (1024 * 1024))),
                error := some "Output truncated: exceeds 1MB limit" } }
  else
    match r.err with
    | some e =>
      if r.ctxErr = some ContextErr.DeadlineExceeded then
        { status := StatusRequestTimeout,
          body := { success := some false, output := some (jsonStringValue r.output),
                    error := some "Command execution timeout after 5 seconds" } }
      else
        { status := StatusOK,
          body := { success := some false, output := some (jsonStringValue r.output),
                    error := some e } }
    | none =>
      { status := StatusOK,
        body := { success := some true, output := some (jsonStringValue r.output) } }

/-- The handler `ExecuteCommand`. `parsed` is what `c.BodyParser(&req)` gives: the
text of its error, or the `command` field of the request body. -/
def ExecuteCommand (goos : String) (run : Cmd → ProcResult) (parsed : Except String String) :
    Outcome :=
  match parsed with
  | .error e =>
    { response :=
        { status := StatusBadRequest,
          body := { error := some "Invalid request body format", detail := some e } },
      spawned := none }
  | .ok command =>
    let command := TrimSpace command
    if command = "" then
      reject StatusBadRequest "Command cannot be empty"
    else if len command > 1024 then
      reject StatusBadRequest "Command exceeds maximum length of 1024 characters"
    else if unsafePatternMatchString command then
      reject StatusBadRequest "Command contains unsafe characters"
    else
      match Fields command with
      | [] => reject StatusBadRequest "Invalid command format"
      | verb :: args =>
        if !AllowedCommands verb then
          reject StatusForbidden "Command not allowed"
        else if (verb :: args).length > 10 then
          reject StatusBadRequest "Too many arguments (max 10)"
        else
          let cmd := buildCmd goos command verb args
          { response := respond (run cmd), spawned := some cmd }

/-! ## The validator of the specification

The six checks of the policy validator, each on the raw command string. -/

/-- Check 1: the command is not empty after trimming. -/
def checkNonEmpty (command : String) : Prop :=
  TrimSpace command ≠ ""

/-- Check 2: the trimmed command is at most 1024 long (`len`, in bytes). -/
def checkLength (command : String) : Prop :=
  len (TrimSpace command) ≤ 1024

/-- Check 3: the trimmed command has none of the unsafe characters. -/
def checkSafe (command : String) : Prop :=
  ∀ c ∈ unsafeChars, c ∉ (TrimSpace command).data

/-- Check 4: the trimmed command has at least one whitespace-separated token. -/
def checkTokens (command : String) : Prop :=
  Fields (TrimSpace command) ≠ []

/-- Check 5: the first token is in `AllowedCommands`. -/
def checkVerb (command : String) : Prop :=
  match (Fields (TrimSpace command)).head? with
  | some verb => AllowedCommands verb = true
  | none => False

/-- Check 6: there are at most 10 tokens. -/
def checkCount (command : String) : Prop :=
  (Fields (TrimSpace command)).length ≤ 10

/-- All six checks. -/
def passesValidator (command : String) : Prop :=
  checkNonEmpty command ∧ checkLength command ∧ checkSafe command ∧ checkTokens command ∧
    checkVerb command ∧ checkCount command

instance (command : String) : Decidable (checkNonEmpty command) := by
  unfold checkNonEmpty; infer_instance

instance (command : String) : Decidable (checkLength command) := by
  unfold checkLength; infer_instance

instance (command : String) : Decidable (checkSafe command) := by
  unfold checkSafe; infer_instance

instance (command : String) : Decidable (checkTokens command) := by
  unfold checkTokens; infer_instance

instance (command : String) : Decidable (checkVerb command) := by
  unfold checkVerb; split <;> infer_instance

instance (command : String) : Decidable (checkCount command) := by
  unfold checkCount; infer_instance

instance (command : String) : Decidable (passesValidator command) := by
  unfold passesValidator; infer_instance

/-- A process that prints `hi` and exits with code 0. -/
def runOk : Cmd → ProcResult :=
  fun _ => { output := [104, 105, 10], err := none, ctxErr := none }

/-- A process that prints 1048577 bytes and exits with code 0. -/
def runFlood : Cmd → ProcResult :=
  fun _ => { output := List.replicate 1048577 0, err := none, ctxErr := none }

/-- A process that prints 1048577 bytes and is killed when the deadline expires. -/
def runFloodTimeout : Cmd → ProcResult :=
  fun _ =>
    { output := List.replicate 1048577 0, err := some "signal: killed",
      ctxErr := some ContextErr.DeadlineExceeded }

/-- A process that prints 1048575 times `a`, then `é` (the bytes `C3 A9`), and
exits with code 0. -/
def runSplit : Cmd → ProcResult :=
  fun _ => { output := List.replicate 1048575 0x61 ++ [0xC3, 0xA9], err := none, ctxErr := none }

/-- A process that prints nothing and is killed when the deadline expires. -/
def runTimeout : Cmd → ProcResult :=
  fun _ =>
    { output := [], err := some "signal: killed", ctxErr := some ContextErr.DeadlineExceeded }

/-- The four components of an uptime, in the order days, hours, minutes, seconds,
each with the unit it is written with. -/
def uptimeComponents (u : Nat) : List (Nat × String) :=
  [(u / 86400, " days"), ((u % 86400) / 3600, " hours"), ((u % 3600) / 60, " minutes"),
    (u % 60, " seconds")]

/-- The non-zero components of an uptime, written out and joined with a comma and a space. -/
def renderNonZero (u : Nat) : String :=
  ", ".intercalate
    (((uptimeComponents u).filter (fun p => p.1 ≠ 0)).map (fun p => toString p.1 ++ p.2))

/-- A command of 513 characters, each the two-byte character `é`. -/
def accentedCommand : String :=
  ⟨List.replicate 513 'é'⟩

/-! ## Lists of runes -/

theorem mem_dropWhile_of_not {f : Char → Bool} {c : Char} (hc : f c = false) :
    ∀ l : List Char, c ∈ l → c ∈ l.dropWhile f
  | [], h => by simp at h
  | a :: l, h => by
    rw [List.dropWhile_cons]
    by_cases ha : f a = true
    · rw [if_pos ha]
      rcases List.mem_cons.1 h with rfl | h
      · rw [hc] at ha; exact absurd ha (by simp)
      · exact mem_dropWhile_of_not hc l h
    · rw [if_neg ha]; exact h

theorem mem_of_mem_dropWhile {f : Char → Bool} {c : Char} :
    ∀ l : List Char, c ∈ l.dropWhile f → c ∈ l
  | [], h => h
  | a :: l, h => by
    rw [List.dropWhile_cons] at h
    by_cases ha : f a = true
    · rw [if_pos ha] at h
      exact List.mem_cons_of_mem _ (mem_of_mem_dropWhile l h)
    · rw [if_neg ha] at h; exact h

theorem mem_TrimFunc_of_not {f : Char → Bool} {c : Char} (hc : f c = false) (l : List Char)
    (h : c ∈ l) : c ∈ TrimFunc l f := by
  unfold TrimFunc TrimRightFunc TrimLeftFunc
  rw [List.mem_reverse]
  apply mem_dropWhile_of_not hc
  rw [List.mem_reverse]
  exact mem_dropWhile_of_not hc l h

theorem mem_of_mem_TrimFunc {f : Char → Bool} {c : Char} (l : List Char)
    (h : c ∈ TrimFunc l f) : c ∈ l := by
  unfold TrimFunc TrimRightFunc TrimLeftFunc at h
  rw [List.mem_reverse] at h
  have h := mem_of_mem_dropWhile _ h
  rw [List.mem_reverse] at h
  exact mem_of_mem_dropWhile _ h

theorem dropWhile_all_iff (f : Char → Bool) (l : List Char) :
    (∀ c ∈ l.dropWhile f, f c = true) ↔ ∀ c ∈ l, f c = true := by
  constructor
  · intro h c hc
    by_cases hf : f c = true
    · exact hf
    · exact h c (mem_dropWhile_of_not (by simpa using hf) l hc)
  · intro h c hc
    exact h c (mem_of_mem_dropWhile l hc)

theorem TrimFunc_eq_nil_iff (f : Char → Bool) (l : List Char) :
    TrimFunc l f = [] ↔ ∀ c ∈ l, f c = true := by
  unfold TrimFunc TrimRightFunc TrimLeftFunc
  rw [List.reverse_eq_nil_iff, List.dropWhile_eq_nil_iff]
  simp only [List.mem_reverse]
  exact dropWhile_all_iff f l

/-! ## The field loop -/

theorem fieldsLoop_nil_of_all (f : Char → Bool) :
    ∀ ws : List Char, (∀ c ∈ ws, f c = true) → fieldsLoop f ws [] = []
  | [], _ => by simp [fieldsLoop]
  | a :: ws, h => by
    have ha : f a = true := h a (List.mem_cons_self _ _)
    have hws : ∀ c ∈ ws, f c = true := fun c hc => h c (List.mem_cons_of_mem _ hc)
    simp [fieldsLoop, ha, fieldsLoop_nil_of_all f ws hws]

theorem fieldsLoop_of_all (f : Char → Bool) (cur : List Char) :
    ∀ ws : List Char, (∀ c ∈ ws, f c = true) →
      fieldsLoop f ws cur = fieldsLoop f [] cur
  | [], _ => rfl
  | a :: ws, h => by
    have ha : f a = true := h a (List.mem_cons_self _ _)
    have hws : ∀ c ∈ ws, f c = true := fun c hc => h c (List.mem_cons_of_mem _ hc)
    cases cur with
    | nil => simp [fieldsLoop, ha, fieldsLoop_nil_of_all f ws hws]
    | cons b cur => simp [fieldsLoop, ha, fieldsLoop_nil_of_all f ws hws]

theorem fieldsLoop_append_of_all (f : Char → Bool) (ws : List Char)
    (h : ∀ c ∈ ws, f c = true) :
    ∀ (l cur : List Char), fieldsLoop f (l ++ ws) cur = fieldsLoop f l cur
  | [], cur => by simpa using fieldsLoop_of_all f cur ws h
  | a :: l, cur => by
    have h1 := fieldsLoop_append_of_all f ws h l []
    have h2 := fieldsLoop_append_of_all f ws h l (a :: cur)
    show fieldsLoop f (a :: (l ++ ws)) cur = _
    simp only [fieldsLoop, h1, h2]

theorem fieldsLoop_dropWhile (f : Char → Bool) :
    ∀ l : List Char, fieldsLoop f (l.dropWhile f) [] = fieldsLoop f l []
  | [] => rfl
  | a :: l => by
    rw [List.dropWhile_cons]
    by_cases ha : f a = true
    · rw [if_pos ha, fieldsLoop_dropWhile f l]
      simp [fieldsLoop, ha]
    · rw [if_neg ha]

theorem fieldsLoop_ne_nil_of_cur (f : Char → Bool) :
    ∀ (l cur : List Char), cur ≠ [] → fieldsLoop f l cur ≠ []
  | [], cur, h => by
    cases cur with
    | nil => exact absurd rfl h
    | cons b cur => simp [fieldsLoop]
  | a :: l, cur, h => by
    cases cur with
    | nil => exact absurd rfl h
    | cons b cur =>
      by_cases ha : f a = true
      · simp [fieldsLoop, ha]
      · simp only [fieldsLoop, ha]
        exact fieldsLoop_ne_nil_of_cur f l (a :: b :: cur) (by simp)

theorem fieldsLoop_eq_nil_iff (f : Char → Bool) :
    ∀ l : List Char, fieldsLoop f l [] = [] ↔ ∀ c ∈ l, f c = true
  | [] => by simp [fieldsLoop]
  | a :: l => by
    by_cases ha : f a = true
    · simp [fieldsLoop, ha, fieldsLoop_eq_nil_iff f l]
    · have h1 : fieldsLoop f (a :: l) [] ≠ [] := by
        simp only [fieldsLoop, ha]
        exact fieldsLoop_ne_nil_of_cur f l [a] (by simp)
      constructor
      · intro h; exact absurd h h1
      · intro h; exact absurd (h a (List.mem_cons_self _ _)) ha

theorem TrimRightFunc_append (f : Char → Bool) (l : List Char) :
    l = TrimRightFunc l f ++ (l.reverse.takeWhile f).reverse := by
  unfold TrimRightFunc
  rw [← List.reverse_append, List.takeWhile_append_dropWhile, List.reverse_reverse]

theorem fieldsLoop_TrimFunc (f : Char → Bool) (l : List Char) :
    fieldsLoop f (TrimFunc l f) [] = fieldsLoop f l [] := by
  have h1 := TrimRightFunc_append f (TrimLeftFunc l f)
  have h2 : ∀ c ∈ ((TrimLeftFunc l f).reverse.takeWhile f).reverse, f c = true := by
    intro c hc
    rw [List.mem_reverse] at hc
    exact (List.mem_takeWhile_imp hc)
  have h3 := fieldsLoop_append_of_all f _ h2 (TrimRightFunc (TrimLeftFunc l f) f) []
  rw [← h1] at h3
  unfold TrimFunc
  rw [← h3]
  exact fieldsLoop_dropWhile f l

/-! ## `TrimSpace` and `Fields` -/

theorem TrimSpace_eq_empty_iff (s : String) :
    TrimSpace s = "" ↔ ∀ c ∈ s.data, IsSpace c = true := by
  rw [← TrimFunc_eq_nil_iff]
  constructor
  · intro h
    have := congrArg String.data h
    simpa [TrimSpace] using this
  · intro h
    apply String.ext
    simpa [TrimSpace] using h

theorem Fields_TrimSpace (s : String) : Fields (TrimSpace s) = Fields s :=
  fieldsLoop_TrimFunc IsSpace s.data

theorem Fields_eq_nil_iff (s : String) : Fields s = [] ↔ TrimSpace s = "" := by
  rw [TrimSpace_eq_empty_iff]
  exact fieldsLoop_eq_nil_iff IsSpace s.data

theorem unsafeChars_not_IsSpace {c : Char} (h : c ∈ unsafeChars) : IsSpace c = false := by
  simp only [unsafeChars, List.mem_cons, List.mem_singleton, List.not_mem_nil, or_false] at h
  rcases h with h | h | h | h | h | h | h | h | h | h | h | h | h | h <;> subst h <;> decide

theorem unsafePatternMatchString_iff (s : String) :
    unsafePatternMatchString s = true ↔ ∃ c ∈ unsafeChars, c ∈ s.data := by
  unfold unsafePatternMatchString
  rw [List.any_eq_true]
  constructor
  · rintro ⟨c, h1, h2⟩; exact ⟨c, by simpa using h2, h1⟩
  · rintro ⟨c, h1, h2⟩; exact ⟨c, h2, by simpa using h1⟩

theorem unsafePatternMatchString_TrimSpace (s : String) :
    unsafePatternMatchString (TrimSpace s) = unsafePatternMatchString s := by
  rw [Bool.eq_iff_iff, unsafePatternMatchString_iff, unsafePatternMatchString_iff]
  constructor
  · rintro ⟨c, h1, h2⟩
    exact ⟨c, h1, mem_of_mem_TrimFunc _ h2⟩
  · rintro ⟨c, h1, h2⟩
    exact ⟨c, h1, mem_TrimFunc_of_not (unsafeChars_not_IsSpace h1) _ h2⟩

/-! ## The gateway, case by case -/

theorem RuneCountInString_le_len (s : String) : RuneCountInString s ≤ len s := by
  have h : ∀ l : List Char, l.length ≤ String.utf8ByteSize.go l := by
    intro l
    induction l with
    | nil => simp [String.utf8ByteSize.go]
    | cons c cs ih =>
      have := Char.utf8Size_pos c
      simp only [String.utf8ByteSize.go, List.length_cons]
      omega
  exact h s.data

theorem checkSafe_iff (command : String) :
    checkSafe command ↔ unsafePatternMatchString (TrimSpace command) = false := by
  rw [← Bool.not_eq_true, unsafePatternMatchString_iff]
  unfold checkSafe
  constructor
  · rintro h ⟨c, h1, h2⟩; exact h c h1 h2
  · intro h c h1 h2; exact h ⟨c, h1, h2⟩

/-- A command that passes the six checks is run: the outcome is the shaped
result of the built command. -/
theorem ExecuteCommand_of_passes (goos : String) (run : Cmd → ProcResult) (command : String)
    (h : passesValidator command) :
    ∃ verb args, Fields (TrimSpace command) = verb :: args ∧ AllowedCommands verb = true ∧
      ExecuteCommand goos run (.ok command) =
        { response := respond (run (buildCmd goos (TrimSpace command) verb args)),
          spawned := some (buildCmd goos (TrimSpace command) verb args) } := by
  obtain ⟨h1, h2, h3, h4, h5, h6⟩ := h
  unfold checkNonEmpty at h1
  unfold checkLength at h2
  rw [checkSafe_iff] at h3
  unfold checkVerb at h5
  unfold checkCount at h6
  cases hf : Fields (TrimSpace command) with
  | nil => exact absurd hf h4
  | cons verb args =>
    rw [hf] at h5 h6
    simp only [List.head?_cons] at h5
    refine ⟨verb, args, rfl, h5, ?_⟩
    unfold ExecuteCommand
    simp only [h1, if_false, not_lt.2 h2, h3, hf, h5, Bool.not_true, not_lt.2 h6,
      Bool.false_eq_true]

/-- A command that fails one of the six checks is rejected with status 400 or 403. -/
theorem ExecuteCommand_of_fails (goos : String) (run : Cmd → ProcResult) (command : String)
    (h : ¬ passesValidator command) :
    ∃ status error, (status = 400 ∨ status = 403) ∧
      ExecuteCommand goos run (.ok command) = reject status error := by
  unfold ExecuteCommand
  simp only
  by_cases h1 : TrimSpace command = ""
  · exact ⟨400, _, Or.inl rfl, by rw [if_pos h1]; rfl⟩
  rw [if_neg h1]
  by_cases h2 : len (TrimSpace command) > 1024
  · exact ⟨400, _, Or.inl rfl, by rw [if_pos h2]; rfl⟩
  rw [if_neg h2]
  by_cases h3 : unsafePatternMatchString (TrimSpace command) = true
  · exact ⟨400, _, Or.inl rfl, by rw [if_pos h3]; rfl⟩
  rw [if_neg h3]
  cases hf : Fields (TrimSpace command) with
  | nil => exact ⟨400, _, Or.inl rfl, rfl⟩
  | cons verb args =>
    simp only
    by_cases h5 : AllowedCommands verb = true
    · by_cases h6 : (verb :: args).length > 10
      · refine ⟨400, "Too many arguments (max 10)", Or.inl rfl, ?_⟩
        simp only [h5, Bool.not_true, Bool.false_eq_true, if_false, if_pos h6]
        rfl
      · exfalso
        apply h
        refine ⟨h1, not_lt.1 h2, (checkSafe_iff command).2 (by simpa using h3), ?_, ?_, ?_⟩
        · unfold checkTokens; rw [hf]; simp
        · unfold checkVerb; rw [hf]; simpa using h5
        · unfold checkCount; rw [hf]; exact not_lt.1 h6
    · refine ⟨403, "Command not allowed", Or.inr rfl, ?_⟩
      simp only [Bool.not_eq_true] at h5
      simp only [h5, Bool.not_false, if_true]
      rfl

/-! ## The command gateway: validation before execution -/

/-- C1: for every command string of a request body, either the command passes
all six validator checks (and then has at most 1024 characters and a subprocess
is created), or it fails one of them and `ExecuteCommand` rejects it with status
400 or 403 without creating a subprocess. So subprocess creation is reached only
by commands that pass the six checks, and a command with more than 10 tokens is
rejected whatever its verb. -/
theorem ExecuteCommand_spawns_iff_validated (goos : String) (run : Cmd → ProcResult)
    (command : String) :
    (passesValidator command ∧ RuneCountInString (TrimSpace command) ≤ 1024 ∧
        (ExecuteCommand goos run (.ok command)).spawned ≠ none) ∨
      (¬ passesValidator command ∧
        (ExecuteCommand goos run (.ok command)).spawned = none ∧
        ((ExecuteCommand goos run (.ok command)).response.status = 400 ∨
          (ExecuteCommand goos run (.ok command)).response.status = 403)) := by
  by_cases h : passesValidator command
  · left
    obtain ⟨verb, args, _, _, he⟩ := ExecuteCommand_of_passes goos run command h
    refine ⟨h, le_trans (RuneCountInString_le_len _) h.2.1, ?_⟩
    rw [he]
    simp
  · right
    obtain ⟨status, error, hs, he⟩ := ExecuteCommand_of_fails goos run command h
    refine ⟨h, ?_, ?_⟩
    · rw [he]; rfl
    · rw [he]; exact hs

/-- C2: a command that contains one of the unsafe characters is rejected with
status 400 and no subprocess is created, whatever its first token; when the
trimmed command is at most 1024 bytes long the rejection is the one of the
unsafe-character check. -/
theorem ExecuteCommand_unsafe_rejected (goos : String) (run : Cmd → ProcResult)
    (command : String) (c : Char) (hc : c ∈ unsafeChars) (hmem : c ∈ command.data) :
    (ExecuteCommand goos run (.ok command)).response.status = 400 ∧
      (ExecuteCommand goos run (.ok command)).spawned = none ∧
      (len (TrimSpace command) ≤ 1024 →
        ExecuteCommand goos run (.ok command) =
          reject StatusBadRequest "Command contains unsafe characters") := by
  have hu : unsafePatternMatchString (TrimSpace command) = true := by
    rw [unsafePatternMatchString_TrimSpace, unsafePatternMatchString_iff]
    exact ⟨c, hc, hmem⟩
  have hne : TrimSpace command ≠ "" := by
    intro h
    have := (TrimSpace_eq_empty_iff command).1 h c hmem
    rw [unsafeChars_not_IsSpace hc] at this
    exact absurd this (by simp)
  by_cases h2 : len (TrimSpace command) > 1024
  · have he : ExecuteCommand goos run (.ok command) =
        reject StatusBadRequest "Command exceeds maximum length of 1024 characters" := by
      unfold ExecuteCommand
      simp only [hne, if_false, if_pos h2]
    rw [he]
    exact ⟨rfl, rfl, fun h => absurd h (not_le.2 h2)⟩
  · have he : ExecuteCommand goos run (.ok command) =
        reject StatusBadRequest "Command contains unsafe characters" := by
      unfold ExecuteCommand
      simp only [hne, if_false, if_neg h2, hu, if_true]
    rw [he]
    exact ⟨rfl, rfl, fun _ => rfl⟩

/-- C2 at the command `ls; rm -rf /`: rejected at the unsafe-character check. -/
theorem ExecuteCommand_unsafe_rejected_witness :
    ';' ∈ unsafeChars ∧ ';' ∈ "ls; rm -rf /".data ∧ len (TrimSpace "ls; rm -rf /") ≤ 1024 ∧
      AllowedCommands "ls" = true ∧
      ExecuteCommand "linux" runOk (.ok "ls; rm -rf /") =
        reject StatusBadRequest "Command contains unsafe characters" :=
  ⟨by decide, by decide, by decide, by decide,
    (ExecuteCommand_unsafe_rejected "linux" runOk "ls; rm -rf /" ';' (by decide) (by decide)).2.2
      (by decide)⟩

/-- C3 as stated fails: the first token of `rm; ls` is `rm;`, which is not in
`AllowedCommands`, and the command is rejected with status 400 by the
unsafe-character check, not with 403. -/
theorem ExecuteCommand_verb_not_allowed_counterexample :
    (Fields "rm; ls").head? = some "rm;" ∧ AllowedCommands "rm;" = false ∧
      ExecuteCommand "linux" runOk (.ok "rm; ls") =
        reject StatusBadRequest "Command contains unsafe characters" ∧
      (ExecuteCommand "linux" runOk (.ok "rm; ls")).response.status ≠ 403 := by
  decide

/-- C3, amended: a command whose first token is not in `AllowedCommands` never
creates a subprocess and is rejected with status 400 or 403; when, after
trimming, it is at most 1024 bytes long and has no unsafe character, the
rejection is status 403 with the error `Command not allowed`. -/
theorem ExecuteCommand_verb_not_allowed (goos : String) (run : Cmd → ProcResult)
    (command verb : String) (hv : (Fields command).head? = some verb)
    (hn : AllowedCommands verb = false) :
    (ExecuteCommand goos run (.ok command)).spawned = none ∧
      ((ExecuteCommand goos run (.ok command)).response.status = 400 ∨
        (ExecuteCommand goos run (.ok command)).response.status = 403) ∧
      (len (TrimSpace command) ≤ 1024 → checkSafe command →
        ExecuteCommand goos run (.ok command) = reject StatusForbidden "Command not allowed") := by
  have hf : (Fields (TrimSpace command)).head? = some verb := by rw [Fields_TrimSpace]; exact hv
  have hfail : ¬ passesValidator command := by
    intro h
    have h5 := h.2.2.2.2.1
    unfold checkVerb at h5
    rw [hf] at h5
    simp only at h5
    rw [hn] at h5
    exact absurd h5 (by simp)
  obtain ⟨status, error, hs, he⟩ := ExecuteCommand_of_fails goos run command hfail
  refine ⟨by rw [he]; rfl, by rw [he]; exact hs, ?_⟩
  intro hlen hsafe
  have hne : TrimSpace command ≠ "" := by
    intro h
    rw [(Fields_eq_nil_iff command).2 h] at hv
    simp at hv
  cases hfs : Fields (TrimSpace command) with
  | nil => rw [hfs] at hf; simp at hf
  | cons v args =>
    rw [hfs] at hf
    simp only [List.head?_cons, Option.some.injEq] at hf
    subst hf
    unfold ExecuteCommand
    simp only [hne, if_false, not_lt.2 hlen, (checkSafe_iff command).1 hsafe, hfs, hn,
      Bool.not_false, if_true, Bool.false_eq_true]

/-- C3 amended, at the command `cat /etc/passwd`. -/
theorem ExecuteCommand_verb_not_allowed_witness :
    (Fields "cat /etc/passwd").head? = some "cat" ∧ AllowedCommands "cat" = false ∧
      len (TrimSpace "cat /etc/passwd") ≤ 1024 ∧ checkSafe "cat /etc/passwd" ∧
      ExecuteCommand "linux" runOk (.ok "cat /etc/passwd") =
        reject StatusForbidden "Command not allowed" :=
  ⟨by decide, by decide, by decide, by decide,
    (ExecuteCommand_verb_not_allowed "linux" runOk "cat /etc/passwd" "cat" (by decide)
      (by decide)).2.2 (by decide) (by decide)⟩

/-- C10: a string that is not empty after `TrimSpace` has at least one field, so
the pattern match on the first token always finds one, and `ExecuteCommand`
never answers with the `Invalid command format` rejection. -/
theorem ExecuteCommand_malformed_unreachable (goos : String) (run : Cmd → ProcResult)
    (parsed : Except String String) (s : String) :
    (TrimSpace s ≠ "" → ∃ verb args, Fields (TrimSpace s) = verb :: args) ∧
      ExecuteCommand goos run parsed ≠ reject StatusBadRequest "Invalid command format" := by
  have key : ∀ t : String, TrimSpace t ≠ "" → ∃ verb args, Fields (TrimSpace t) = verb :: args := by
    intro t ht
    cases hf : Fields (TrimSpace t) with
    | nil =>
      rw [Fields_TrimSpace] at hf
      exact absurd ((Fields_eq_nil_iff t).1 hf) ht
    | cons verb args => exact ⟨verb, args, rfl⟩
  refine ⟨key s, ?_⟩
  cases parsed with
  | error e =>
    intro h
    have := congrArg (fun o => o.response.body.detail) h
    simp [ExecuteCommand, reject] at this
  | ok command =>
    by_cases hp : passesValidator command
    · obtain ⟨verb, args, _, _, he⟩ := ExecuteCommand_of_passes goos run command hp
      rw [he]
      intro h
      have := congrArg Outcome.spawned h
      simp [reject] at this
    · have hne : Fields (TrimSpace command) = [] → TrimSpace command = "" := by
        intro h
        rw [Fields_TrimSpace] at h
        exact (Fields_eq_nil_iff command).1 h
      unfold ExecuteCommand
      simp only
      split_ifs with h1 h2 h3
      · decide
      · decide
      · decide
      · split
        · rename_i hf
          exact absurd (hne hf) h1
        · split_ifs <;> first | decide | (intro h; have := congrArg Outcome.spawned h; simp [reject] at this)

/-- C10 at the command ` ls -la `: trimmed it is `ls -la`, with the fields `ls` and `-la`. -/
theorem ExecuteCommand_malformed_unreachable_witness :
    TrimSpace " ls -la " ≠ "" ∧ (∃ verb args, Fields (TrimSpace " ls -la ") = verb :: args) ∧
      Fields (TrimSpace " ls -la ") = ["ls", "-la"] :=
  ⟨by decide,
    (ExecuteCommand_malformed_unreachable "linux" runOk (.ok " ls -la ") " ls -la ").1 (by decide),
    by decide⟩

/-! ## JSON string values -/

theorem jsonLoop_length_le : ∀ (s : List Byte) (pending : Nat),
    (jsonLoop s pending).length ≤ 3 * s.length
  | [], _ => by simp [jsonLoop]
  | b :: rest, pending + 1 => by
    have := jsonLoop_length_le rest pending
    simp only [jsonLoop, List.length_cons]
    omega
  | b :: rest, 0 => by
    have h1 := jsonLoop_length_le rest 0
    have h2 := jsonLoop_length_le rest ((DecodeRuneInString (b :: rest)).2 - 1)
    simp only [jsonLoop]
    split_ifs
    · simp only [List.length_cons]; omega
    · simp only [List.length_cons]; omega

theorem jsonLoop_of_valid : ∀ (s : List Byte) (pending : Nat),
    validLoop s pending = true → jsonLoop s pending = s
  | [], _, _ => by simp [jsonLoop]
  | b :: rest, pending + 1, h => by
    simp only [validLoop] at h
    simp only [jsonLoop, jsonLoop_of_valid rest pending h]
  | b :: rest, 0, h => by
    simp only [validLoop] at h
    by_cases hi : invalidStart (b :: rest) = true
    · rw [if_pos hi] at h
      exact absurd h (by simp)
    · rw [if_neg hi] at h
      simp only [jsonLoop, if_neg hi, jsonLoop_of_valid rest _ h]

theorem jsonLoop_length_ge : ∀ (s : List Byte) (pending : Nat),
    s.length ≤ (jsonLoop s pending).length
  | [], _ => by simp [jsonLoop]
  | b :: rest, pending + 1 => by
    have := jsonLoop_length_ge rest pending
    simp only [jsonLoop, List.length_cons]
    omega
  | b :: rest, 0 => by
    have h1 := jsonLoop_length_ge rest 0
    have h2 := jsonLoop_length_ge rest ((DecodeRuneInString (b :: rest)).2 - 1)
    simp only [jsonLoop]
    split_ifs
    · simp only [List.length_cons]; omega
    · simp only [List.length_cons]; omega

theorem jsonLoop_length_gt_of_invalid : ∀ (s : List Byte) (pending : Nat),
    validLoop s pending = false → s.length < (jsonLoop s pending).length
  | [], _, h => by simp [validLoop] at h
  | b :: rest, pending + 1, h => by
    simp only [validLoop] at h
    have := jsonLoop_length_gt_of_invalid rest pending h
    simp only [jsonLoop, List.length_cons]
    omega
  | b :: rest, 0, h => by
    simp only [validLoop] at h
    by_cases hi : invalidStart (b :: rest) = true
    · have := jsonLoop_length_ge rest 0
      simp only [jsonLoop, if_pos hi, List.length_cons]
      omega
    · rw [if_neg hi] at h
      have := jsonLoop_length_gt_of_invalid rest _ h
      simp only [jsonLoop, if_neg hi, List.length_cons]
      omega

/-- The string value keeps the bytes exactly when they are valid UTF-8. -/
theorem jsonStringValue_eq_iff (s : List Byte) : jsonStringValue s = s ↔ ValidString s = true := by
  constructor
  · intro h
    by_contra hv
    have hv2 : validLoop s 0 = false := by simpa [ValidString] using hv
    have := jsonLoop_length_gt_of_invalid s 0 hv2
    unfold jsonStringValue at h
    rw [h] at this
    exact absurd this (lt_irrefl _)
  · exact jsonLoop_of_valid s 0

theorem jsonStringValue_length_le (s : List Byte) :
    (jsonStringValue s).length ≤ 3 * s.length :=
  jsonLoop_length_le s 0

theorem DecodeRuneInString_ascii (b : Byte) (rest : List Byte) (hb : b.val < 0x80) :
    DecodeRuneInString (b :: rest) = (b.val, 1) := by
  simp [DecodeRuneInString, first, hb]

theorem invalidStart_ascii (b : Byte) (rest : List Byte) (hb : b.val < 0x80) :
    invalidStart (b :: rest) = false := by
  unfold invalidStart
  rw [DecodeRuneInString_ascii b rest hb]
  have : b.val ≠ RuneError := by unfold RuneError; omega
  simp [this]

theorem jsonLoop_replicate_append (b : Byte) (hb : b.val < 0x80) (rest : List Byte) :
    ∀ n : Nat, jsonLoop (List.replicate n b ++ rest) 0 = List.replicate n b ++ jsonLoop rest 0
  | 0 => by simp
  | n + 1 => by
    rw [List.replicate_succ, List.cons_append]
    simp only [jsonLoop, invalidStart_ascii b _ hb, DecodeRuneInString_ascii b _ hb,
      Bool.false_eq_true, if_false]
    rw [jsonLoop_replicate_append b hb rest n]
    rfl

theorem validLoop_replicate (b : Byte) (hb : b.val < 0x80) :
    ∀ n : Nat, validLoop (List.replicate n b) 0 = true
  | 0 => by simp [validLoop]
  | n + 1 => by
    rw [List.replicate_succ]
    simp only [validLoop, invalidStart_ascii b _ hb, DecodeRuneInString_ascii b _ hb,
      Bool.false_eq_true, if_false]
    exact validLoop_replicate b hb n

theorem take_succ_replicate_append (b x y : Byte) (n : Nat) :
    (List.replicate n b ++ [x, y]).take (n + 1) = List.replicate n b ++ [x] := by
  rw [List.take_append_eq_append_take, List.length_replicate,
    List.take_of_length_le (by rw [List.length_replicate]; omega)]
  have : n + 1 - n = 1 := by omega
  rw [this]
  rfl

theorem Char_toNat_valid (c : Char) :
    c.toNat < 0xD800 ∨ (0xDFFF < c.toNat ∧ c.toNat < 0x110000) := by
  have h := c.valid
  simpa [Char.toNat, UInt32.isValidChar, Nat.isValidChar] using h

theorem val_ofNat (n : Nat) (h : n < 256) : (Fin.ofNat n : Byte).val = n := by
  simp [Fin.ofNat, Nat.mod_eq_of_lt h]

theorem first_two (b : Nat) (h : 0xC2 ≤ b) (h2 : b < 0xE0) : first b = 0x02 := by
  unfold first
  repeat' split_ifs
  all_goals omega

theorem first_three (b : Nat) (h : 0xE0 ≤ b) (h2 : b < 0xF0) :
    first b = (if b = 0xE0 then 0x13 else if b = 0xED then 0x23 else 0x03) := by
  unfold first
  repeat' split_ifs
  all_goals omega

theorem first_four (b : Nat) (h : 0xF0 ≤ b) (h2 : b < 0xF5) :
    first b = (if b = 0xF0 then 0x34 else if b = 0xF4 then 0x44 else 0x04) := by
  unfold first
  repeat' split_ifs
  all_goals omega

theorem DecodeRuneInString_two (b0 b1 : Byte) (rest : List Byte)
    (h0 : 0xC2 ≤ b0.val) (h0' : b0.val < 0xE0) (h1 : 0x80 ≤ b1.val) (h1' : b1.val ≤ 0xBF) :
    (DecodeRuneInString (b0 :: b1 :: rest)).2 = 2 := by
  unfold DecodeRuneInString
  simp only [List.length_cons, List.getD_cons_zero, List.getD_cons_succ, first_two _ h0 h0']
  norm_num [acceptRanges]
  repeat rw [if_neg (by omega)]

theorem DecodeRuneInString_three (b0 b1 b2 : Byte) (rest : List Byte)
    (h0 : 0xE0 ≤ b0.val) (h0' : b0.val < 0xF0)
    (h1 : (if b0.val = 0xE0 then 0xA0 else 0x80) ≤ b1.val)
    (h1' : b1.val ≤ (if b0.val = 0xED then 0x9F else 0xBF))
    (h2 : 0x80 ≤ b2.val) (h2' : b2.val ≤ 0xBF) :
    (DecodeRuneInString (b0 :: b1 :: b2 :: rest)).2 = 3 := by
  unfold DecodeRuneInString
  simp only [List.length_cons, List.getD_cons_zero, List.getD_cons_succ, first_three _ h0 h0']
  by_cases e0 : b0.val = 0xE0
  · rw [e0] at h1 h1'
    norm_num at h1 h1'
    norm_num [e0, acceptRanges]
    repeat rw [if_neg (by omega)]
  · by_cases ed : b0.val = 0xED
    · rw [ed] at h1 h1'
      norm_num at h1 h1'
      norm_num [ed, acceptRanges]
      repeat rw [if_neg (by omega)]
    · simp only [e0, ed, if_false] at h1 h1'
      norm_num [e0, ed, acceptRanges]
      repeat rw [if_neg (by omega)]

theorem DecodeRuneInString_four (b0 b1 b2 b3 : Byte) (rest : List Byte)
    (h0 : 0xF0 ≤ b0.val) (h0' : b0.val < 0xF5)
    (h1 : (if b0.val = 0xF0 then 0x90 else 0x80) ≤ b1.val)
    (h1' : b1.val ≤ (if b0.val = 0xF4 then 0x8F else 0xBF))
    (h2 : 0x80 ≤ b2.val) (h2' : b2.val ≤ 0xBF) (h3 : 0x80 ≤ b3.val) (h3' : b3.val ≤ 0xBF) :
    (DecodeRuneInString (b0 :: b1 :: b2 :: b3 :: rest)).2 = 4 := by
  unfold DecodeRuneInString
  simp only [List.length_cons, List.getD_cons_zero, List.getD_cons_succ, first_four _ h0 h0']
  by_cases e0 : b0.val = 0xF0
  · rw [e0] at h1 h1'
    norm_num at h1 h1'
    norm_num [e0, acceptRanges]
    repeat rw [if_neg (by omega)]
  · by_cases e4 : b0.val = 0xF4
    · rw [e4] at h1 h1'
      norm_num at h1 h1'
      norm_num [e4, acceptRanges]
      repeat rw [if_neg (by omega)]
    · simp only [e0, e4, if_false] at h1 h1'
      norm_num [e0, e4, acceptRanges]
      repeat rw [if_neg (by omega)]

theorem invalidStart_of_size (s : List Byte) (h : (DecodeRuneInString s).2 ≠ 1) :
    invalidStart s = false := by
  unfold invalidStart
  simp [h]

theorem validLoop_EncodeRune (c : Char) (rest : List Byte) :
    validLoop (EncodeRune c ++ rest) 0 = validLoop rest 0 := by
  have hv := Char_toNat_valid c
  unfold EncodeRune
  simp only
  split_ifs with h1 h2 h3
  · have hb : (Fin.ofNat c.toNat : Byte).val < 0x80 := by rw [val_ofNat _ (by omega)]; exact h1
    show validLoop (Fin.ofNat c.toNat :: rest) 0 = validLoop rest 0
    simp only [validLoop, invalidStart_ascii _ _ hb, DecodeRuneInString_ascii _ _ hb,
      Bool.false_eq_true, if_false]
  · have hd := DecodeRuneInString_two (Fin.ofNat (0xC0 + c.toNat / 64))
      (Fin.ofNat (0x80 + c.toNat % 64)) rest
      (by rw [val_ofNat _ (by omega)]; omega) (by rw [val_ofNat _ (by omega)]; omega)
      (by rw [val_ofNat _ (by omega)]; omega) (by rw [val_ofNat _ (by omega)]; omega)
    show validLoop (Fin.ofNat (0xC0 + c.toNat / 64) :: Fin.ofNat (0x80 + c.toNat % 64) :: rest) 0
      = validLoop rest 0
    simp only [validLoop, invalidStart_of_size _ (by rw [hd]; decide), hd, Bool.false_eq_true,
      if_false]
  · have hd := DecodeRuneInString_three (Fin.ofNat (0xE0 + c.toNat / 4096))
      (Fin.ofNat (0x80 + c.toNat / 64 % 64)) (Fin.ofNat (0x80 + c.toNat % 64)) rest
      (by rw [val_ofNat _ (by omega)]; omega) (by rw [val_ofNat _ (by omega)]; omega)
      (by rw [val_ofNat _ (by omega), val_ofNat _ (by omega)]; split_ifs <;> omega)
      (by rw [val_ofNat _ (by omega), val_ofNat _ (by omega)]; split_ifs <;> omega)
      (by rw [val_ofNat _ (by omega)]; omega) (by rw [val_ofNat _ (by omega)]; omega)
    show validLoop (Fin.ofNat (0xE0 + c.toNat / 4096) :: Fin.ofNat (0x80 + c.toNat / 64 % 64) ::
      Fin.ofNat (0x80 + c.toNat % 64) :: rest) 0 = validLoop rest 0
    simp only [validLoop, invalidStart_of_size _ (by rw [hd]; decide), hd, Bool.false_eq_true,
      if_false]
  · have hd := DecodeRuneInString_four (Fin.ofNat (0xF0 + c.toNat / 262144))
      (Fin.ofNat (0x80 + c.toNat / 4096 % 64)) (Fin.ofNat (0x80 + c.toNat / 64 % 64))
      (Fin.ofNat (0x80 + c.toNat % 64)) rest
      (by rw [val_ofNat _ (by omega)]; omega) (by rw [val_ofNat _ (by omega)]; omega)
      (by rw [val_ofNat _ (by omega), val_ofNat _ (by omega)]; split_ifs <;> omega)
      (by rw [val_ofNat _ (by omega), val_ofNat _ (by omega)]; split_ifs <;> omega)
      (by rw [val_ofNat _ (by omega)]; omega) (by rw [val_ofNat _ (by omega)]; omega)
      (by rw [val_ofNat _ (by omega)]; omega) (by rw [val_ofNat _ (by omega)]; omega)
    show validLoop (Fin.ofNat (0xF0 + c.toNat / 262144) ::
      Fin.ofNat (0x80 + c.toNat / 4096 % 64) :: Fin.ofNat (0x80 + c.toNat / 64 % 64) ::
      Fin.ofNat (0x80 + c.toNat % 64) :: rest) 0 = validLoop rest 0
    simp only [validLoop, invalidStart_of_size _ (by rw [hd]; decide), hd, Bool.false_eq_true,
      if_false]

/-- The bytes of a string are valid UTF-8. -/
theorem ValidString_bytesOf (s : String) : ValidString (bytesOf s) = true := by
  have h : ∀ l : List Char, validLoop (l.flatMap EncodeRune) 0 = true := by
    intro l
    induction l with
    | nil => rfl
    | cons c cs ih =>
      rw [List.flatMap_cons, validLoop_EncodeRune]
      exact ih
  exact h s.data


theorem EncodeRune_length (c : Char) : (EncodeRune c).length = c.utf8Size := by
  have e1 : (127 : UInt32).toNat = 127 := rfl
  have e2 : (2047 : UInt32).toNat = 2047 := rfl
  have e3 : (65535 : UInt32).toNat = 65535 := rfl
  have h1 : c.val ≤ 127 ↔ c.toNat ≤ 127 := Iff.rfl
  have h2 : c.val ≤ 2047 ↔ c.toNat ≤ 2047 := Iff.rfl
  have h3 : c.val ≤ 65535 ↔ c.toNat ≤ 65535 := Iff.rfl
  unfold EncodeRune Char.utf8Size
  simp only
  change (if c.toNat < 128 then _ else _ : List Byte).length =
    if c.val ≤ 127 then 1 else if c.val ≤ 2047 then 2 else if c.val ≤ 65535 then 3 else 4
  simp only [h1, h2, h3]
  split_ifs <;> first | rfl | (exfalso; omega)

/-- Go's `len(s)` is the number of bytes of `[]byte(s)`. -/
theorem len_eq_length_bytesOf (s : String) : len s = (bytesOf s).length := by
  have h : ∀ l : List Char, String.utf8ByteSize.go l = (l.flatMap EncodeRune).length := by
    intro l
    induction l with
    | nil => rfl
    | cons c cs ih =>
      rw [List.flatMap_cons, List.length_append, EncodeRune_length, ← ih]
      simp only [String.utf8ByteSize.go]
      omega
  exact h s.data

/-! ## The command gateway: execution and response shaping -/

/-- When `ExecuteCommand` ran a command, its response is the shaped result of that run. -/
theorem ExecuteCommand_response_of_spawned (goos : String) (run : Cmd → ProcResult)
    (parsed : Except String String) (cmd : Cmd)
    (hs : (ExecuteCommand goos run parsed).spawned = some cmd) :
    (ExecuteCommand goos run parsed).response = respond (run cmd) := by
  cases parsed with
  | error e => simp [ExecuteCommand] at hs
  | ok command =>
    by_cases hp : passesValidator command
    · obtain ⟨verb, args, _, _, he⟩ := ExecuteCommand_of_passes goos run command hp
      rw [he] at hs ⊢
      simp only [Option.some.injEq] at hs
      rw [hs]
    · obtain ⟨status, error, _, he⟩ := ExecuteCommand_of_fails goos run command hp
      rw [he] at hs
      simp [reject] at hs

theorem runFlood_length (cmd : Cmd) : 1048576 < (runFlood cmd).output.length := by
  show 1048576 < (List.replicate 1048577 (0 : Byte)).length
  rw [List.length_replicate]
  exact Nat.lt_succ_self _

theorem runFloodTimeout_length (cmd : Cmd) :
    1048576 < (runFloodTimeout cmd).output.length := by
  show 1048576 < (List.replicate 1048577 (0 : Byte)).length
  rw [List.length_replicate]
  exact Nat.lt_succ_self _

/-- The response for a captured output of more than 1048576 bytes. -/
theorem respond_of_long (r : ProcResult) (hl : 1048576 < r.output.length) :
    respond r =
      { status := 200,
        body := { success := some false, output := some (jsonStringValue (r.output.take 1048576)),
                  error := some "Output truncated: exceeds 1MB limit" } } := by
  have hl2 : r.output.length > 1024 * 1024 := by omega
  unfold respond
  rw [if_pos hl2]
  rfl

theorem runFlood_valid (cmd : Cmd) :
    ValidString ((runFlood cmd).output.take 1048576) = true := by
  show validLoop ((List.replicate 1048577 (0 : Byte)).take 1048576) 0 = true
  rw [List.take_replicate]
  exact validLoop_replicate 0 (by decide) _

/-- The response output when the cut falls inside `é`: the `a`s and one U+FFFD. -/
theorem runSplit_output (cmd : Cmd) :
    jsonStringValue ((runSplit cmd).output.take 1048576) =
      List.replicate 1048575 0x61 ++ [0xEF, 0xBF, 0xBD] := by
  have ho : (runSplit cmd).output = List.replicate 1048575 0x61 ++ [0xC3, 0xA9] := rfl
  have ht := take_succ_replicate_append (0x61 : Byte) 0xC3 0xA9 1048575
  have e : (1048575 + 1 : Nat) = 1048576 := by norm_num
  rw [e] at ht
  rw [ho, ht]
  unfold jsonStringValue
  rw [jsonLoop_replicate_append 0x61 (by decide)]
  have hc : jsonLoop [(0xC3 : Byte)] 0 = [0xEF, 0xBF, 0xBD] := by decide
  rw [hc]

theorem runSplit_length (cmd : Cmd) : (runSplit cmd).output.length = 1048577 := by
  show (List.replicate 1048575 (0x61 : Byte) ++ [0xC3, 0xA9]).length = 1048577
  rw [List.length_append, List.length_replicate]
  rfl

/-- C5 as stated fails: `ls -la` is validated, the process prints 1048575 times
`a` and then `é` and exits with code 0; the cut after 1048576 bytes falls inside
`é`, `c.JSON` writes the byte that is left of it as U+FFFD, and the output of
the response has 1048578 bytes and is not the first 1048576 bytes of what the
process printed. -/
theorem ExecuteCommand_output_bounded_counterexample :
    passesValidator "ls -la" ∧
      (ExecuteCommand "linux" runSplit (.ok "ls -la")).spawned =
        some (buildCmd "linux" "ls -la" "ls" ["-la"]) ∧
      (runSplit (buildCmd "linux" "ls -la" "ls" ["-la"])).err = none ∧
      (runSplit (buildCmd "linux" "ls -la" "ls" ["-la"])).output =
        List.replicate 1048575 0x61 ++ [0xC3, 0xA9] ∧
      (ExecuteCommand "linux" runSplit (.ok "ls -la")).response.body.output =
        some (List.replicate 1048575 0x61 ++ [0xEF, 0xBF, 0xBD]) ∧
      (List.replicate 1048575 (0x61 : Byte) ++ [0xEF, 0xBF, 0xBD]).length = 1048578 ∧
      List.replicate 1048575 (0x61 : Byte) ++ [0xEF, 0xBF, 0xBD] ≠
        (runSplit (buildCmd "linux" "ls -la" "ls" ["-la"])).output.take 1048576 := by
  have hs : (ExecuteCommand "linux" runSplit (.ok "ls -la")).spawned =
      some (buildCmd "linux" "ls -la" "ls" ["-la"]) := rfl
  have hl : 1048576 < (runSplit (buildCmd "linux" "ls -la" "ls" ["-la"])).output.length := by
    rw [runSplit_length]
    exact Nat.lt_succ_self _
  have hr := ExecuteCommand_response_of_spawned "linux" runSplit (.ok "ls -la") _ hs
  rw [respond_of_long _ hl, runSplit_output] at hr
  have hlen : (List.replicate 1048575 (0x61 : Byte) ++ [0xEF, 0xBF, 0xBD]).length = 1048578 := by
    rw [List.length_append, List.length_replicate]
    rfl
  refine ⟨by decide, hs, rfl, rfl, by rw [hr], hlen, ?_⟩
  intro h
  have h2 := congrArg List.length h
  rw [hlen, List.length_take, runSplit_length] at h2
  exact absurd h2 (by decide)

/-- C5, amended: whenever `ExecuteCommand` ran a command, whatever the process
did, the output of the response is the JSON string value of the first 1048576
bytes of the captured output (of all of it when it is shorter): it is exactly
those bytes, so at most 1048576 bytes, if and only if they are valid UTF-8, and
it is never more than 3145728 bytes; and when the captured output is longer than
1048576 bytes the response is status 200 with `success = false`, that output
and the truncation error, whatever the error and the exit code of the process. -/
theorem ExecuteCommand_output_bounded (goos : String) (run : Cmd → ProcResult)
    (parsed : Except String String) (cmd : Cmd)
    (hs : (ExecuteCommand goos run parsed).spawned = some cmd) :
    (ExecuteCommand goos run parsed).response.body.output =
        some (jsonStringValue ((run cmd).output.take 1048576)) ∧
      ((run cmd).output.take 1048576).length ≤ 1048576 ∧
      (jsonStringValue ((run cmd).output.take 1048576)).length ≤ 3145728 ∧
      ((ExecuteCommand goos run parsed).response.body.output =
          some ((run cmd).output.take 1048576) ↔
        ValidString ((run cmd).output.take 1048576) = true) ∧
      (ValidString ((run cmd).output.take 1048576) = true →
        (ExecuteCommand goos run parsed).response.body.output =
          some ((run cmd).output.take 1048576)) ∧
      (1048576 < (run cmd).output.length →
        (ExecuteCommand goos run parsed).response =
            { status := 200,
              body := { success := some false,
                        output := some (jsonStringValue ((run cmd).output.take 1048576)),
                        error := some "Output truncated: exceeds 1MB limit" } } ∧
          ((run cmd).output.take 1048576).length = 1048576) := by
  have hout : (ExecuteCommand goos run parsed).response.body.output =
      some (jsonStringValue ((run cmd).output.take 1048576)) := by
    rw [ExecuteCommand_response_of_spawned goos run parsed cmd hs]
    unfold respond
    by_cases hl : (run cmd).output.length > 1024 * 1024
    · rw [if_pos hl]
    · rw [if_neg hl]
      have ht : (run cmd).output.take 1048576 = (run cmd).output :=
        List.take_of_length_le (by omega)
      rw [ht]
      split
      · split_ifs <;> rfl
      · rfl
  have htake : ((run cmd).output.take 1048576).length ≤ 1048576 := by
    rw [List.length_take]
    omega
  have hiff : (ExecuteCommand goos run parsed).response.body.output =
        some ((run cmd).output.take 1048576) ↔
      ValidString ((run cmd).output.take 1048576) = true := by
    rw [hout, Option.some.injEq]
    exact jsonStringValue_eq_iff _
  refine ⟨hout, htake, ?_, hiff, hiff.2, ?_⟩
  · have := jsonStringValue_length_le ((run cmd).output.take 1048576)
    omega
  · intro hl
    rw [ExecuteCommand_response_of_spawned goos run parsed cmd hs]
    refine ⟨respond_of_long _ hl, ?_⟩
    rw [List.length_take]
    omega

/-- C5 amended, at the command `echo hello` with a process that prints 1048577
bytes, all of them the byte 0, and exits with code 0. -/
theorem ExecuteCommand_output_bounded_witness :
    (ExecuteCommand "linux" runFlood (.ok "echo hello")).spawned =
        some (buildCmd "linux" "echo hello" "echo" ["hello"]) ∧
      (runFlood (buildCmd "linux" "echo hello" "echo" ["hello"])).err = none ∧
      ValidString ((runFlood (buildCmd "linux" "echo hello" "echo"
        ["hello"])).output.take 1048576) = true ∧
      1048576 < (runFlood (buildCmd "linux" "echo hello" "echo" ["hello"])).output.length ∧
      (ExecuteCommand "linux" runFlood (.ok "echo hello")).response.body.output =
        some ((runFlood (buildCmd "linux" "echo hello" "echo" ["hello"])).output.take
          1048576) ∧
      (ExecuteCommand "linux" runFlood (.ok "echo hello")).response =
        { status := 200,
          body := { success := some false,
                    output := some (jsonStringValue ((runFlood (buildCmd "linux" "echo hello"
                      "echo" ["hello"])).output.take 1048576)),
                    error := some "Output truncated: exceeds 1MB limit" } } :=
  ⟨rfl, rfl, runFlood_valid _, runFlood_length _,
    (ExecuteCommand_output_bounded "linux" runFlood (.ok "echo hello")
      (buildCmd "linux" "echo hello" "echo" ["hello"]) rfl).2.2.2.2.1 (runFlood_valid _),
    ((ExecuteCommand_output_bounded "linux" runFlood (.ok "echo hello")
      (buildCmd "linux" "echo hello" "echo" ["hello"]) rfl).2.2.2.2.2 (runFlood_length _)).1⟩

/-- C6 as stated fails: `ls -R /` is validated, the process is killed at the
deadline after printing 1048577 bytes, and the response is the truncation
response with status 200, not the timeout response with status 408. -/
theorem ExecuteCommand_timeout_counterexample :
    passesValidator "ls -R /" ∧
      (ExecuteCommand "linux" runFloodTimeout (.ok "ls -R /")).spawned =
        some (buildCmd "linux" "ls -R /" "ls" ["-R", "/"]) ∧
      (runFloodTimeout (buildCmd "linux" "ls -R /" "ls" ["-R", "/"])).err =
        some "signal: killed" ∧
      (runFloodTimeout (buildCmd "linux" "ls -R /" "ls" ["-R", "/"])).ctxErr =
        some ContextErr.DeadlineExceeded ∧
      (ExecuteCommand "linux" runFloodTimeout (.ok "ls -R /")).response.status = 200 ∧
      (ExecuteCommand "linux" runFloodTimeout (.ok "ls -R /")).response.body.error =
        some "Output truncated: exceeds 1MB limit" := by
  have hs : (ExecuteCommand "linux" runFloodTimeout (.ok "ls -R /")).spawned =
      some (buildCmd "linux" "ls -R /" "ls" ["-R", "/"]) := rfl
  have hl : 1048576 <
      (runFloodTimeout (buildCmd "linux" "ls -R /" "ls" ["-R", "/"])).output.length :=
    runFloodTimeout_length _
  have hr := ExecuteCommand_response_of_spawned "linux" runFloodTimeout (.ok "ls -R /") _ hs
  rw [respond_of_long _ hl] at hr
  refine ⟨by decide, hs, rfl, rfl, ?_, ?_⟩
  · rw [hr]
  · rw [hr]

/-- C6, amended: when `ExecuteCommand` ran a command, the run ended with an error,
the deadline of the context was exceeded and the captured output is at most
1048576 bytes, the response is the timeout response: status 408,
`success = false`, the captured output (as its JSON string value) and the
timeout error. -/
theorem ExecuteCommand_timeout (goos : String) (run : Cmd → ProcResult)
    (parsed : Except String String) (cmd : Cmd) (e : String)
    (hs : (ExecuteCommand goos run parsed).spawned = some cmd)
    (he : (run cmd).err = some e)
    (hd : (run cmd).ctxErr = some ContextErr.DeadlineExceeded)
    (hl : (run cmd).output.length ≤ 1048576) :
    (ExecuteCommand goos run parsed).response =
      { status := 408,
        body := { success := some false, output := some (jsonStringValue (run cmd).output),
                  error := some "Command execution timeout after 5 seconds" } } := by
  rw [ExecuteCommand_response_of_spawned goos run parsed cmd hs]
  have hl2 : ¬ (run cmd).output.length > 1024 * 1024 := by omega
  unfold respond
  rw [if_neg hl2]
  simp only [he, hd, if_true]
  rfl

/-- C6 amended, at the command `ping localhost` with a process killed at the deadline. -/
theorem ExecuteCommand_timeout_witness :
    (ExecuteCommand "linux" runTimeout (.ok "ping localhost")).response =
      { status := 408,
        body := { success := some false, output := some [],
                  error := some "Command execution timeout after 5 seconds" } } :=
  ExecuteCommand_timeout "linux" runTimeout (.ok "ping localhost")
    (buildCmd "linux" "ping localhost" "ping" ["localhost"]) "signal: killed"
    rfl rfl rfl (by decide)

/-- The environment of the command that is run: nil for `ping` on Windows, the
empty list otherwise. -/
theorem buildCmd_Env (goos command verb : String) (args : List String) :
    (buildCmd goos command verb args).Env =
      if goos = "windows" ∧ verb = "ping" then none else some [] := by
  unfold buildCmd
  by_cases h : goos = "windows" ∧ verb = "ping"
  · simp only [if_pos h]; rfl
  · simp only [if_neg h]

/-- C7 fails on the code: on Windows the validated command `ping localhost` is run
as `ping.exe` with `Env` nil, so the process inherits the environment of the
server, whatever the process then does; elsewhere the same command is run by
`/bin/sh` with the empty environment. -/
theorem ExecuteCommand_windows_ping_env (run : Cmd → ProcResult) :
    passesValidator "ping localhost" ∧
      (ExecuteCommand "windows" run (.ok "ping localhost")).spawned =
        some { Path := "C:\\Windows\\System32\\ping.exe",
               Args := ["C:\\Windows\\System32\\ping.exe", "localhost"],
               Env := none } ∧
      (ExecuteCommand "linux" run (.ok "ping localhost")).spawned =
        some { Path := "/bin/sh", Args := ["/bin/sh", "-c", "ping localhost"],
               Env := some [] } :=
  ⟨by decide, rfl, rfl⟩

/-- What the length check does: a command that is not empty after trimming is
rejected as too long exactly when its trimmed form has more than 1024 bytes. -/
theorem ExecuteCommand_too_long_iff (goos : String) (run : Cmd → ProcResult) (command : String)
    (hne : TrimSpace command ≠ "") :
    ExecuteCommand goos run (.ok command) =
        reject StatusBadRequest "Command exceeds maximum length of 1024 characters" ↔
      1024 < len (TrimSpace command) := by
  constructor
  · intro h
    by_contra hl
    by_cases hp : passesValidator command
    · obtain ⟨verb, args, _, _, he⟩ := ExecuteCommand_of_passes goos run command hp
      rw [he] at h
      have := congrArg Outcome.spawned h
      simp [reject] at this
    · unfold ExecuteCommand at h
      simp only [hne, if_false, if_neg hl] at h
      revert h
      split_ifs
      · decide
      · split
        · decide
        · split_ifs <;> first | decide | (intro h; have := congrArg Outcome.spawned h; simp [reject] at this)
  · intro hl
    unfold ExecuteCommand
    simp only [hne, if_false]
    rw [if_pos hl]

set_option maxRecDepth 100000 in
/-- C9 fails on the code: a command of 513 two-byte characters has 1026 bytes, and
`ExecuteCommand` rejects it as exceeding 1024 characters. -/
theorem ExecuteCommand_multibyte_too_long (goos : String) (run : Cmd → ProcResult) :
    RuneCountInString (TrimSpace accentedCommand) = 513 ∧
      len (TrimSpace accentedCommand) = 1026 ∧
      ExecuteCommand goos run (.ok accentedCommand) =
        reject StatusBadRequest "Command exceeds maximum length of 1024 characters" := by
  have h1 : RuneCountInString (TrimSpace accentedCommand) = 513 := by decide
  have h2 : len (TrimSpace accentedCommand) = 1026 := by decide
  have hne : TrimSpace accentedCommand ≠ "" := by
    intro h
    rw [h] at h1
    exact absurd h1 (by decide)
  exact ⟨h1, h2, (ExecuteCommand_too_long_iff goos run accentedCommand hne).2 (by omega)⟩

/-! ## The service operations -/

/-- C4 as stated fails: the service name `nginx$(id)` has the unsafe characters
`$`, `(` and `)`, and neither handler rejects it: `RestartService` runs
`systemctl restart nginx$(id)` and `GetServiceLogs`, on Windows, puts the name
into the PowerShell command it runs; both answer with status 200. -/
theorem service_name_counterexample :
    '$' ∈ unsafeChars ∧ '$' ∈ "nginx$(id)".data ∧
      RestartService "linux" runOk "nginx$(id)" =
        { response :=
            { status := 200,
              body := { success := some true, message := some "Service restarted successfully",
                        output := some [104, 105, 10] } },
          spawned := some (Command "systemctl" ["restart", "nginx$(id)"]) } ∧
      (GetServiceLogs "windows" runOk "nginx$(id)" "").response.status = 200 ∧
      (GetServiceLogs "windows" runOk "nginx$(id)" "").spawned =
        some (Command "powershell" ["-Command",
          "Get-EventLog -LogName Application -Source nginx$(id) -Newest 100"]) := by
  decide

/-- C4, amended: a service name that contains one of the characters `;`, `&`, `|`
is rejected by both `RestartService` and `GetServiceLogs` with status 400 and the
error `Invalid service name`, and no subprocess is created. -/
theorem service_name_rejected (goos : String) (run : Cmd → ProcResult)
    (serviceName linesQuery : String) (c : Char) (hc : c ∈ [';', '&', '|'])
    (hmem : c ∈ serviceName.data) :
    RestartService goos run serviceName =
        { response := { status := 400, body := { error := some "Invalid service name" } },
          spawned := none } ∧
      GetServiceLogs goos run serviceName linesQuery =
        { response := { status := 400, body := { error := some "Invalid service name" } },
          spawned := none } := by
  have h : ContainsAny serviceName ";&|" = true := by
    unfold ContainsAny
    rw [List.any_eq_true]
    exact ⟨c, hmem, by simpa using hc⟩
  unfold RestartService GetServiceLogs
  simp only [h, if_true]
  exact ⟨rfl, rfl⟩

/-- C4 amended, at the service name `nginx; reboot`. -/
theorem service_name_rejected_witness :
    RestartService "linux" runOk "nginx; reboot" =
        { response := { status := 400, body := { error := some "Invalid service name" } },
          spawned := none } ∧
      GetServiceLogs "linux" runOk "nginx; reboot" "50" =
        { response := { status := 400, body := { error := some "Invalid service name" } },
          spawned := none } :=
  service_name_rejected "linux" runOk "nginx; reboot" "50" ';' (by decide) (by decide)

/-! ## The uptime formatter -/

/-- C8: for every uptime `u` in seconds, `formatUptime u` is `0 seconds` when
`u = 0` and otherwise the non-zero components among days, hours, minutes and
seconds, in that order, each written with its unit and joined with a comma and
a space; the hours are below 24, the minutes and the seconds below 60, and the
four components add up to `u`. -/
theorem formatUptime_spec (u : Nat) :
    formatUptime u = (if u = 0 then "0 seconds" else renderNonZero u) ∧
      uptimeComponents u =
        [(u / 86400, " days"), ((u % 86400) / 3600, " hours"), ((u % 3600) / 60, " minutes"),
          (u % 60, " seconds")] ∧
      (u % 86400) / 3600 < 24 ∧ (u % 3600) / 60 < 60 ∧ u % 60 < 60 ∧
      (u / 86400) * 86400 + ((u % 86400) / 3600) * 3600 + ((u % 3600) / 60) * 60 + u % 60 = u ∧
      formatUptime 0 = "0 seconds" := by
  refine ⟨?_, rfl, by omega, by omega, by omega, by omega, by decide⟩
  by_cases h0 : u = 0
  · subst h0; decide
  rw [if_neg h0]
  unfold formatUptime renderNonZero uptimeComponents
  by_cases hd : u / 86400 = 0 <;> by_cases hh : (u % 86400) / 3600 = 0 <;>
    by_cases hm : (u % 3600) / 60 = 0 <;> by_cases hs : u % 60 = 0 <;>
    first
      | (simp [hd, hh, hm, hs, Nat.pos_iff_ne_zero]; done)
      | (exfalso; omega)

end RemoteServer
